import Mathlib

/-!
Verification of the cost-accounting core of `services/cost_calculator.py`.

Shallow embedding conventions:
* Python floats are modelled as rationals (`ℚ`); Python `x / 1000` on ints is
  true division and is modelled as division in `ℚ`.
* The pricing YAML document is modelled by `PriceTable`: the `models` dict is
  an insertion-ordered association list (Python dicts iterate in insertion
  order), each model's rate dict has two optional numeric fields, and the
  `metadata.disclaimer` entry is an optional string.
* `Optional[float]` becomes `Option ℚ`; a missing dict key queried with
  `.get(k, d)` becomes an `Option` consumed with `Option.getD`.
* `datetime` timestamps are dropped: no claim under verification mentions
  them, and wall-clock time has no shallow embedding.
-/

namespace CostCalc

/-- Python-style substring test at the head of the haystack:
`subAt needle hay` is true iff `needle` is a prefix of `hay`. -/
def subAt : List Char → List Char → Bool
  | [], _ => true
  | _ :: _, [] => false
  | a :: as, b :: bs => a == b && subAt as bs

/-- Python's `needle in hay` on strings (character lists):
true iff `needle` occurs contiguously somewhere in `hay`. -/
def hasSub (needle : List Char) : List Char → Bool
  | [] => subAt needle []
  | c :: t => subAt needle (c :: t) || hasSub needle t

/-- The per-model rate dict `{input_per_1k_tokens: ..., output_per_1k_tokens: ...}`;
either field may be absent (the code reads them with `.get(field, default)`). -/
structure Rates where
  input_per_1k_tokens : Option ℚ
  output_per_1k_tokens : Option ℚ
  deriving DecidableEq, Repr

/-- The loaded pricing document: the `models` dict in iteration (insertion)
order, and the `metadata.disclaimer` string when present. -/
structure PriceTable where
  models : List (String × Rates)
  disclaimer : Option String
  deriving DecidableEq, Repr

/-- One record of the session ledger (`CostBreakdown` in the source,
minus the timestamp, which no verified claim mentions). -/
structure CostBreakdown where
  model : String
  input_tokens : ℕ
  output_tokens : ℕ
  total_tokens : ℕ
  input_cost : ℚ
  output_cost : ℚ
  total_estimated_cost : ℚ
  actual_cost : Option ℚ := none
  source : String := "Demo Estimate"
  deriving DecidableEq, Repr

/-- The calculator's state: the loaded pricing and the session ledger. -/
structure CostCalculator where
  pricing : PriceTable
  session_costs : List CostBreakdown
  deriving DecidableEq, Repr

/-- Python's `str.lower()` on the character list (the model names under
verification are ASCII, where `Char.toLower` agrees with Python). -/
def strLower (s : String) : String := ⟨s.data.map Char.toLower⟩

/-- The loop condition of `get_model_rates`:
`key.lower() == model_key or model_key in key.lower()`. -/
def matchesModel (model_key key : String) : Bool :=
  strLower key == model_key || hasSub model_key.data (strLower key).data

/-- The `for key in models` loop of `get_model_rates`: return the rates of the
first key satisfying `matchesModel`, else `none`. -/
def findRates (model_key : String) : List (String × Rates) → Option Rates
  | [] => none
  | (k, r) :: rest => if matchesModel model_key k then some r else findRates model_key rest

/-- Exact dict lookup `models.get(k)` (dict keys are unique; first match). -/
def lookupRates (k : String) : List (String × Rates) → Option Rates
  | [] => none
  | (k', r) :: rest => if k' = k then some r else lookupRates k rest

/-- `CostCalculator.get_model_rates`: normalize the model name (the source's
`.replace("gpt-", "gpt-")` is the identity, so normalization is `.lower()`),
scan the models dict, and otherwise fall back to the `gpt-5-mini` entry with
hard-coded field defaults `0.00015` / `0.0006`. -/
def get_model_rates (pricing : PriceTable) (model : String) : ℚ × ℚ :=
  let model_key := strLower model
  match findRates model_key pricing.models with
  | some rates => (rates.input_per_1k_tokens.getD 0, rates.output_per_1k_tokens.getD 0)
  | none =>
    match lookupRates "gpt-5-mini" pricing.models with
    | some d => (d.input_per_1k_tokens.getD 0.00015, d.output_per_1k_tokens.getD 0.0006)
    | none => (0.00015, 0.0006)

/-- `CostCalculator.calculate_cost`: resolve rates, build the breakdown, and
append it to the session ledger. Returns the new state and the breakdown. -/
def calculate_cost (c : CostCalculator) (model : String)
    (input_tokens output_tokens : ℕ) : CostCalculator × CostBreakdown :=
  let rates := get_model_rates c.pricing model
  let input_cost : ℚ := ((input_tokens : ℚ) / 1000) * rates.1
  let output_cost : ℚ := ((output_tokens : ℚ) / 1000) * rates.2
  let breakdown : CostBreakdown :=
    { model := model
      input_tokens := input_tokens
      output_tokens := output_tokens
      total_tokens := input_tokens + output_tokens
      input_cost := input_cost
      output_cost := output_cost
      total_estimated_cost := input_cost + output_cost
      actual_cost := none
      source := c.pricing.disclaimer.getD "Demo Estimate" }
  ({ c with session_costs := c.session_costs ++ [breakdown] }, breakdown)

/-- One value of the `costs_by_model` dict. -/
structure ModelGroup where
  requests : ℕ
  tokens : ℕ
  estimated_cost : ℚ
  deriving DecidableEq, Repr

/-- One step of the `_costs_by_model` loop body on the accumulated dict:
insert a zero group for an unseen model, then add the record's counts.
The dict is an insertion-ordered association list; an existing key is
updated in place, a new key is appended at the end. -/
def updateGroup (m : String) (t : ℕ) (e : ℚ) :
    List (String × ModelGroup) → List (String × ModelGroup)
  | [] => [(m, ⟨1, t, e⟩)]
  | (k, g) :: rest =>
    if k = m then (k, ⟨g.requests + 1, g.tokens + t, g.estimated_cost + e⟩) :: rest
    else (k, g) :: updateGroup m t e rest

/-- `CostCalculator._costs_by_model`: group the ledger by the literal
`model` string, in first-occurrence order. -/
def costs_by_model (ledger : List CostBreakdown) : List (String × ModelGroup) :=
  ledger.foldl (fun acc c => updateGroup c.model c.total_tokens c.total_estimated_cost acc) []

/-- Dict lookup on the grouping (keys are unique; first match). -/
def lookupGroup (m : String) : List (String × ModelGroup) → Option ModelGroup
  | [] => none
  | (k, g) :: rest => if k = m then some g else lookupGroup m rest

/-- `sum(c.actual_cost for c in self.session_costs if c.actual_cost is not None)`. -/
def sumActual (ledger : List CostBreakdown) : ℚ :=
  (ledger.filterMap (fun c => c.actual_cost)).sum

/-- The dict returned by `get_session_total`. -/
structure SessionTotal where
  request_count : ℕ
  total_input_tokens : ℕ
  total_output_tokens : ℕ
  total_tokens : ℕ
  total_estimated_cost : ℚ
  total_actual_cost : Option ℚ
  costs_by_model : List (String × ModelGroup)
  deriving DecidableEq, Repr

/-- `CostCalculator.get_session_total`: aggregate the current ledger.
`total_actual_cost` is the present-value sum when strictly positive
(`total_actual if total_actual > 0 else None`), else the `None` marker. -/
def get_session_total (c : CostCalculator) : SessionTotal :=
  let total_input := (c.session_costs.map (fun x => x.input_tokens)).sum
  let total_output := (c.session_costs.map (fun x => x.output_tokens)).sum
  let total_estimated := (c.session_costs.map (fun x => x.total_estimated_cost)).sum
  let total_actual := sumActual c.session_costs
  { request_count := c.session_costs.length
    total_input_tokens := total_input
    total_output_tokens := total_output
    total_tokens := total_input + total_output
    total_estimated_cost := total_estimated
    total_actual_cost := if 0 < total_actual then some total_actual else none
    costs_by_model := costs_by_model c.session_costs }

/-- `CostCalculator.clear_session`. -/
def clear_session (c : CostCalculator) : CostCalculator :=
  { c with session_costs := [] }

/-- ASCII digit for `n < 10`. -/
def digitChar (n : ℕ) : Char := Char.ofNat (48 + n)

/-- The `k` low-order decimal digits of `n`, least significant first. -/
def natDigitsRev : ℕ → ℕ → List Char
  | 0, _ => []
  | k + 1, n => digitChar (n % 10) :: natDigitsRev k (n / 10)

/-- The 6-digit zero-padded decimal rendering of `n % 10^6`. -/
def fracPart (n : ℕ) : String := ⟨(natDigitsRev 6 n).reverse⟩

/-- Round half to even (the rounding of Python's fixed-point `%f` formatting). -/
def rhe (q : ℚ) : ℤ :=
  if q - ⌊q⌋ < 1 / 2 then ⌊q⌋
  else if 1 / 2 < q - ⌊q⌋ then ⌊q⌋ + 1
  else if ⌊q⌋ % 2 = 0 then ⌊q⌋ else ⌊q⌋ + 1

/-- The integer of millionths rendered by `f"{q:.6f}"`. -/
def fmt6Digits (q : ℚ) : ℤ := rhe (q * 1000000)

/-- Python's `f"{q:.6f}"`: fixed-point with exactly six decimal places. -/
def fmt6 (q : ℚ) : String :=
  let n := fmt6Digits q
  (if n < 0 then "-" else "") ++ Nat.repr (n.natAbs / 1000000) ++ "." ++
    fracPart (n.natAbs % 1000000)

/-- Python truthiness of an `Optional[float]`: `None` and `0.0` are falsy. -/
def pyTruthy : Option ℚ → Bool
  | none => false
  | some a => a != 0

/-- The dict produced by `CostBreakdown.to_dict`, minus the timestamp. -/
structure CostView where
  model : String
  input_tokens : ℕ
  output_tokens : ℕ
  total_tokens : ℕ
  input_cost : String
  output_cost : String
  total_estimated_cost : String
  actual_cost : String
  source : String
  deriving DecidableEq, Repr

/-- `CostBreakdown.to_dict`: render the raw costs as `$`-prefixed fixed-point
strings; the actual-cost slot is `f"${...:.6f}" if self.actual_cost else "Pending"`
(Python truthiness, so an actual cost of `0.0` also renders as `"Pending"`). -/
def to_dict (c : CostBreakdown) : CostView :=
  { model := c.model
    input_tokens := c.input_tokens
    output_tokens := c.output_tokens
    total_tokens := c.total_tokens
    input_cost := "$" ++ fmt6 c.input_cost
    output_cost := "$" ++ fmt6 c.output_cost
    total_estimated_cost := "$" ++ fmt6 c.total_estimated_cost
    actual_cost :=
      if pyTruthy c.actual_cost then "$" ++ fmt6 (c.actual_cost.getD 0) else "Pending"
    source := c.source }

/-- `CostCalculator.get_cost_history`: the ledger in append order, rendered. -/
def get_cost_history (c : CostCalculator) : List CostView :=
  c.session_costs.map to_dict

/-- Outcome of opening and parsing the pricing YAML file in `_load_pricing`:
the file may be missing (`FileNotFoundError`), the read or parse may fail
with some other error, or it may yield a table. -/
inductive ReadOutcome where
  | notFound
  | failure (msg : String)
  | success (table : PriceTable)

/-- The built-in default table of `_load_pricing`'s `except FileNotFoundError`
branch: three named models with fixed example rates and a disclaimer. -/
def default_pricing : PriceTable :=
  { models :=
      [("gpt-5-mini", ⟨some 0.00015, some 0.0006⟩),
       ("gpt-5.2", ⟨some 0.0025, some 0.01⟩),
       ("gpt-realtime", ⟨some 0.06, some 0.24⟩)]
    disclaimer := some "Demo estimates - actual costs may vary" }

/-- `CostCalculator._load_pricing`: a missing file yields the built-in default
table; any other read or parse failure propagates. -/
def load_pricing : ReadOutcome → Except String PriceTable
  | .notFound => .ok default_pricing
  | .failure msg => .error msg
  | .success t => .ok t

/-- `CostCalculator.__init__`: load the table (propagating load failures,
so no calculator value exists on failure) and start with an empty ledger. -/
def init_calculator (r : ReadOutcome) : Except String CostCalculator :=
  (load_pricing r).map (fun p => { pricing := p, session_costs := [] })

/-- States reachable through this core's operations alone: construction,
`calculate_cost`, and `clear_session`. -/
inductive Reachable : CostCalculator → Prop
  | init (p : PriceTable) : Reachable { pricing := p, session_costs := [] }
  | step (c : CostCalculator) (m : String) (i o : ℕ) :
      Reachable c → Reachable (calculate_cost c m i o).1
  | clear (c : CostCalculator) : Reachable c → Reachable (clear_session c)

/-- Run a sequence of `calculate_cost` calls `(model, input, output)`. -/
def runCalls (c : CostCalculator) : List (String × ℕ × ℕ) → CostCalculator
  | [] => c
  | (m, i, o) :: rest => runCalls (calculate_cost c m i o).1 rest

lemma subAt_self (l : List Char) : subAt l l = true := by
  induction l with
  | nil => rfl
  | cons a t ih => simp [subAt, ih]

lemma hasSub_self (l : List Char) : hasSub l l = true := by
  cases l with
  | nil => rfl
  | cons a t => simp [hasSub, subAt_self]

lemma matchesModel_eq_hasSub (mk key : String) :
    matchesModel mk key = hasSub mk.data (strLower key).data := by
  unfold matchesModel
  cases h : strLower key == mk with
  | false => simp
  | true =>
    have h2 : strLower key = mk := eq_of_beq h
    simp [h2, hasSub_self]

lemma get_model_rates_found (p : PriceTable) (model : String) (r : Rates)
    (h : findRates (strLower model) p.models = some r) :
    get_model_rates p model =
      (r.input_per_1k_tokens.getD 0, r.output_per_1k_tokens.getD 0) := by
  simp only [get_model_rates, h]

lemma get_model_rates_default (p : PriceTable) (model : String)
    (h : findRates (strLower model) p.models = none)
    (hd : lookupRates "gpt-5-mini" p.models = none) :
    get_model_rates p model = (0.00015, 0.0006) := by
  simp only [get_model_rates, h, hd]

lemma get_model_rates_default_found (p : PriceTable) (model : String) (d : Rates)
    (h : findRates (strLower model) p.models = none)
    (hd : lookupRates "gpt-5-mini" p.models = some d) :
    get_model_rates p model =
      (d.input_per_1k_tokens.getD 0.00015, d.output_per_1k_tokens.getD 0.0006) := by
  simp only [get_model_rates, h, hd]

lemma findRates_append (mk : String) (pre post : List (String × Rates))
    (k : String) (r : Rates)
    (hpre : ∀ p ∈ pre, matchesModel mk p.1 = false)
    (hk : matchesModel mk k = true) :
    findRates mk (pre ++ (k, r) :: post) = some r := by
  induction pre with
  | nil => simp [findRates, hk]
  | cons p t ih =>
    have hp : matchesModel mk p.1 = false := hpre p (List.mem_cons_self p t)
    have ht : ∀ q ∈ t, matchesModel mk q.1 = false :=
      fun q hq => hpre q (List.mem_cons_of_mem p hq)
    simp [findRates, hp, ih ht]

lemma findRates_eq_none (mk : String) (l : List (String × Rates))
    (h : ∀ p ∈ l, matchesModel mk p.1 = false) : findRates mk l = none := by
  induction l with
  | nil => rfl
  | cons p t ih =>
    have hp : matchesModel mk p.1 = false := h p (List.mem_cons_self p t)
    have ht : ∀ q ∈ t, matchesModel mk q.1 = false :=
      fun q hq => h q (List.mem_cons_of_mem p hq)
    simp [findRates, hp, ih ht]

/-- C1 (amended): the resolver returns the rates of the first key, in table
iteration order, whose lowered form contains the lowered model name; in
particular a case-insensitive exact match wins only when no earlier key
satisfies the substring predicate. -/
theorem resolver_exact_match_after_no_substring (pre post : List (String × Rates))
    (k : String) (r : Rates) (d : Option String) (model : String)
    (hk : strLower k = strLower model)
    (hpre : ∀ p ∈ pre, hasSub (strLower model).data (strLower p.1).data = false) :
    get_model_rates ⟨pre ++ (k, r) :: post, d⟩ model =
      (r.input_per_1k_tokens.getD 0, r.output_per_1k_tokens.getD 0) := by
  have hk' : matchesModel (strLower model) k = true := by
    rw [matchesModel_eq_hasSub, hk]
    exact hasSub_self _
  have hpre' : ∀ p ∈ pre, matchesModel (strLower model) p.1 = false := by
    intro p hp
    rw [matchesModel_eq_hasSub]
    exact hpre p hp
  exact get_model_rates_found _ model r
    (findRates_append (strLower model) pre post k r hpre' hk')

/-- C1 witness: the amended theorem at a concrete table. -/
theorem resolver_exact_match_after_no_substring_witness :
    get_model_rates ⟨[("other-model", ⟨some 9, some 9⟩), ("gpt-5-mini", ⟨some 3, some 4⟩)],
        none⟩ "GPT-5-MINI" = (3, 4) := by
  have h := resolver_exact_match_after_no_substring [("other-model", ⟨some 9, some 9⟩)] []
    "gpt-5-mini" ⟨some 3, some 4⟩ none "GPT-5-MINI" (by decide) (by decide)
  simpa using h

/-- C1 counterexample: with the table `{"gpt-5-mini-preview": (1, 2),
"gpt-5-mini": (3, 4)}`, resolving `"GPT-5-MINI"` returns `(1, 2)` — the
earlier key matched by the substring predicate alone — not the rates
`(3, 4)` of the case-insensitively exact key. -/
theorem resolver_exact_match_not_prioritized :
    get_model_rates ⟨[("gpt-5-mini-preview", ⟨some 1, some 2⟩),
        ("gpt-5-mini", ⟨some 3, some 4⟩)], none⟩ "GPT-5-MINI" = (1, 2) ∧
    ((1 : ℚ), (2 : ℚ)) ≠ ((3 : ℚ), (4 : ℚ)) := by
  constructor
  · decide
  · decide

/-- C2 (amended): the substring fallback matches when the lowered TABLE KEY
contains the lowered model name (the first such key in iteration order wins),
not when the name contains the key; the spec's concrete example still returns
the `"gpt-5-mini"` rates, but through the default-model fallback rather than
the substring match. -/
theorem resolver_substring_key_contains_name :
    (∀ (pre post : List (String × Rates)) (k : String) (r : Rates)
        (d : Option String) (model : String),
      hasSub (strLower model).data (strLower k).data = true →
      (∀ p ∈ pre, hasSub (strLower model).data (strLower p.1).data = false) →
      get_model_rates ⟨pre ++ (k, r) :: post, d⟩ model =
        (r.input_per_1k_tokens.getD 0, r.output_per_1k_tokens.getD 0)) ∧
    (∀ a b : ℚ,
      get_model_rates ⟨[("gpt-5-mini", ⟨some a, some b⟩)], none⟩ "gpt-5-mini-preview" =
        (a, b)) := by
  constructor
  · intro pre post k r d model hk hpre
    have hk' : matchesModel (strLower model) k = true := by
      rw [matchesModel_eq_hasSub]
      exact hk
    have hpre' : ∀ p ∈ pre, matchesModel (strLower model) p.1 = false := by
      intro p hp
      rw [matchesModel_eq_hasSub]
      exact hpre p hp
    exact get_model_rates_found _ model r
      (findRates_append (strLower model) pre post k r hpre' hk')
  · intro a b
    have h : findRates (strLower "gpt-5-mini-preview")
        [("gpt-5-mini", ⟨some a, some b⟩)] = none := by
      have hm : matchesModel (strLower "gpt-5-mini-preview") "gpt-5-mini" = false := by
        decide
      simp [findRates, hm]
    have hd : lookupRates "gpt-5-mini" [("gpt-5-mini", (⟨some a, some b⟩ : Rates))] =
        some ⟨some a, some b⟩ := by
      simp [lookupRates]
    have := get_model_rates_default_found
      ⟨[("gpt-5-mini", ⟨some a, some b⟩)], none⟩ "gpt-5-mini-preview" ⟨some a, some b⟩ h hd
    simpa using this

/-- C2 witness: the amended theorem at a concrete table where the first
lowered key containing the lowered model name wins. -/
theorem resolver_substring_key_contains_name_witness :
    get_model_rates ⟨[("other-model", ⟨some 9, some 9⟩),
        ("gpt-5-mini-preview", ⟨some 1, some 2⟩)], none⟩ "GPT-5-Mini" = (1, 2) := by
  have h := resolver_substring_key_contains_name.1 [("other-model", ⟨some 9, some 9⟩)] []
    "gpt-5-mini-preview" ⟨some 1, some 2⟩ none "GPT-5-Mini" (by decide) (by decide)
  simpa using h

/-- C2 counterexample: with the table `{"claude": (1, 2), "gpt-5-mini": (5, 6)}`
and model `"claude-3"`, the lowered name contains the key `"claude"`, yet the
resolver returns `(5, 6)` (the default-model fallback), not the `"claude"`
rates `(1, 2)` the claimed name-contains-key fallback would select. -/
theorem resolver_substring_direction_refuted :
    hasSub (strLower "claude").data (strLower "claude-3").data = true ∧
    get_model_rates ⟨[("claude", ⟨some 1, some 2⟩),
        ("gpt-5-mini", ⟨some 5, some 6⟩)], none⟩ "claude-3" = (5, 6) ∧
    ((5 : ℚ), (6 : ℚ)) ≠ ((1 : ℚ), (2 : ℚ)) := by
  refine ⟨by decide, by decide, by decide⟩

/-- C3 (amended): when no key matches and the table lacks the `"gpt-5-mini"`
default entry, the resolver returns the hard-coded default rates
`(0.00015, 0.0006)` — not `(0.0, 0.0)` — and, being a total function,
it never raises. -/
theorem resolver_no_match_no_default (models : List (String × Rates))
    (d : Option String) (model : String)
    (hno : ∀ p ∈ models, matchesModel (strLower model) p.1 = false)
    (hdef : lookupRates "gpt-5-mini" models = none) :
    get_model_rates ⟨models, d⟩ model = (0.00015, 0.0006) :=
  get_model_rates_default ⟨models, d⟩ model (findRates_eq_none _ _ hno) hdef

/-- C3 witness: the amended theorem at a concrete table without the
default entry. -/
theorem resolver_no_match_no_default_witness :
    get_model_rates ⟨[("abc", ⟨some 1, some 1⟩)], none⟩ "zzz" = (0.00015, 0.0006) :=
  resolver_no_match_no_default [("abc", ⟨some 1, some 1⟩)] none "zzz"
    (by decide) (by decide)

/-- C3 counterexample: with the table `{"abc": (1, 1)}` — no match for
`"zzz"` and no `"gpt-5-mini"` entry — the resolver returns
`(0.00015, 0.0006)`, not the claimed `(0.0, 0.0)`. -/
theorem resolver_no_match_not_zero :
    get_model_rates ⟨[("abc", ⟨some 1, some 1⟩)], none⟩ "zzz" = (0.00015, 0.0006) ∧
    ((0.00015 : ℚ), (0.0006 : ℚ)) ≠ ((0 : ℚ), (0 : ℚ)) := by
  constructor
  · refine get_model_rates_default _ _ ?_ ?_
    · have hm : matchesModel (strLower "zzz") "abc" = false := by decide
      simp [findRates, hm]
    · decide
  · norm_num [Prod.ext_iff]

/-- C4: for every state, model and token counts, the stored record satisfies
`input_cost = (i / 1000) * input_rate`, `output_cost = (o / 1000) * output_rate`,
`total_tokens = i + o`, and `total_estimated_cost = input_cost + output_cost`,
all exactly (the record stores the raw products and sum, unrounded). -/
theorem calculate_cost_formulas (c : CostCalculator) (model : String) (i o : ℕ) :
    ((calculate_cost c model i o).2).input_cost =
      ((i : ℚ) / 1000) * (get_model_rates c.pricing model).1 ∧
    ((calculate_cost c model i o).2).output_cost =
      ((o : ℚ) / 1000) * (get_model_rates c.pricing model).2 ∧
    ((calculate_cost c model i o).2).total_tokens = i + o ∧
    ((calculate_cost c model i o).2).total_estimated_cost =
      ((calculate_cost c model i o).2).input_cost +
        ((calculate_cost c model i o).2).output_cost :=
  ⟨rfl, rfl, rfl, rfl⟩

/-- C9: a missing pricing file yields the built-in default table — three named
models with fixed example rates and a fixed disclaimer — while any other read
or parse failure propagates out of construction, leaving no calculator. -/
theorem load_pricing_fallback :
    load_pricing .notFound = .ok default_pricing ∧
    default_pricing.models =
      [("gpt-5-mini", ⟨some 0.00015, some 0.0006⟩),
       ("gpt-5.2", ⟨some 0.0025, some 0.01⟩),
       ("gpt-realtime", ⟨some 0.06, some 0.24⟩)] ∧
    default_pricing.disclaimer = some "Demo estimates - actual costs may vary" ∧
    (∀ msg, load_pricing (.failure msg) = .error msg) ∧
    (∀ msg, init_calculator (.failure msg) = .error msg) :=
  ⟨rfl, rfl, rfl, fun _ => rfl, fun _ => rfl⟩

/-- C10: each `calculate_cost` call appends exactly the returned record at the
end of the ledger — the new ledger is the old ledger followed by that record —
and leaves the loaded price table unchanged. -/
theorem calculate_cost_frame (c : CostCalculator) (model : String) (i o : ℕ) :
    ((calculate_cost c model i o).1).session_costs =
      c.session_costs ++ [(calculate_cost c model i o).2] ∧
    ((calculate_cost c model i o).1).pricing = c.pricing :=
  ⟨rfl, rfl⟩

lemma reachable_actual_none {c : CostCalculator} (h : Reachable c) :
    ∀ r ∈ c.session_costs, r.actual_cost = none := by
  induction h with
  | init p => intro r hr; simp at hr
  | step c m i o _ ih =>
    intro r hr
    have hs : ((calculate_cost c m i o).1).session_costs =
        c.session_costs ++ [(calculate_cost c m i o).2] := rfl
    rw [hs] at hr
    rcases List.mem_append.mp hr with h1 | h2
    · exact ih r h1
    · rw [List.mem_singleton.mp h2]
      rfl
  | clear c _ ih => intro r hr; simp [clear_session] at hr

lemma sumActual_eq_zero {l : List CostBreakdown}
    (h : ∀ r ∈ l, r.actual_cost = none) : sumActual l = 0 := by
  induction l with
  | nil => rfl
  | cons a t ih =>
    have ha : a.actual_cost = none := h a (List.mem_cons_self a t)
    have ht : sumActual t = 0 := ih fun r hr => h r (List.mem_cons_of_mem a hr)
    simp only [sumActual, List.filterMap_cons, ha] at *
    exact ht

/-- C5 (amended): `get_session_total` reports the sum of present `actual_cost`
values when that sum is strictly positive and the `None` marker otherwise — so
the marker appears not only when the sum is exactly zero but for any
non-positive sum; and since no operation of this core sets `actual_cost`,
every reachable state reports the marker. -/
theorem session_total_actual_cost (c : CostCalculator) :
    ((get_session_total c).total_actual_cost =
      if 0 < sumActual c.session_costs then some (sumActual c.session_costs) else none) ∧
    (sumActual c.session_costs = 0 → (get_session_total c).total_actual_cost = none) ∧
    (Reachable c → (get_session_total c).total_actual_cost = none) := by
  refine ⟨rfl, ?_, ?_⟩
  · intro h
    show (if 0 < sumActual c.session_costs then some (sumActual c.session_costs)
      else none) = none
    rw [h]
    simp
  · intro h
    show (if 0 < sumActual c.session_costs then some (sumActual c.session_costs)
      else none) = none
    rw [sumActual_eq_zero (reachable_actual_none h)]
    simp

/-- C5 witness: a freshly constructed calculator reports the marker. -/
theorem session_total_actual_cost_witness :
    (get_session_total ⟨default_pricing, []⟩).total_actual_cost = none :=
  (session_total_actual_cost ⟨default_pricing, []⟩).2.2
    (Reachable.init default_pricing)

/-- A ledger record carrying a negative externally-set actual cost. -/
def negActualRecord : CostBreakdown :=
  { model := "m", input_tokens := 0, output_tokens := 0, total_tokens := 0,
    input_cost := 0, output_cost := 0, total_estimated_cost := 0,
    actual_cost := some (-1) }

/-- C5 counterexample: a ledger whose present `actual_cost` values sum to `-1`
(nonzero) still reports the `None` marker, so the marker is not reserved for
the exactly-zero sum. -/
theorem session_total_actual_cost_negative_sum :
    sumActual [negActualRecord] = -1 ∧ (-1 : ℚ) ≠ 0 ∧
    (get_session_total ⟨⟨[], none⟩, [negActualRecord]⟩).total_actual_cost = none := by
  have hsum : sumActual [negActualRecord] = -1 := by
    simp [sumActual, negActualRecord]
  refine ⟨hsum, by norm_num, ?_⟩
  show (if 0 < sumActual [negActualRecord] then some (sumActual [negActualRecord])
    else none) = none
  rw [hsum]
  norm_num

/-- The record produced by one `calculate_cost` call, a function of the loaded
pricing and the call's arguments only. -/
def mkRecord (p : PriceTable) (x : String × ℕ × ℕ) : CostBreakdown :=
  (calculate_cost ⟨p, []⟩ x.1 x.2.1 x.2.2).2

lemma runCalls_state (calls : List (String × ℕ × ℕ)) : ∀ c : CostCalculator,
    (runCalls c calls).pricing = c.pricing ∧
    (runCalls c calls).session_costs =
      c.session_costs ++ calls.map (mkRecord c.pricing) := by
  induction calls with
  | nil => intro c; simp [runCalls]
  | cons x t ih =>
    intro c
    obtain ⟨m, i, o⟩ := x
    have h1 : (calculate_cost c m i o).1 =
        ⟨c.pricing, c.session_costs ++ [mkRecord c.pricing (m, i, o)]⟩ := rfl
    have hr : runCalls c ((m, i, o) :: t) = runCalls (calculate_cost c m i o).1 t := rfl
    constructor
    · rw [hr, (ih _).1, h1]
    · rw [hr, (ih _).2, h1, List.map_cons, List.append_assoc]
      rfl

/-- C6: after running any sequence of `calculate_cost` calls from a fresh (or
freshly cleared) state, the session summary reports the call count, the sums
of the per-call input and output token counts, their grand total, and the sum
of the per-record estimated costs, recomputed from the full ledger. -/
theorem session_accumulation (p : PriceTable) (calls : List (String × ℕ × ℕ)) :
    (get_session_total (runCalls ⟨p, []⟩ calls)).request_count = calls.length ∧
    (get_session_total (runCalls ⟨p, []⟩ calls)).total_input_tokens =
      (calls.map (fun x => x.2.1)).sum ∧
    (get_session_total (runCalls ⟨p, []⟩ calls)).total_output_tokens =
      (calls.map (fun x => x.2.2)).sum ∧
    (get_session_total (runCalls ⟨p, []⟩ calls)).total_tokens =
      (calls.map (fun x => x.2.1)).sum + (calls.map (fun x => x.2.2)).sum ∧
    (get_session_total (runCalls ⟨p, []⟩ calls)).total_estimated_cost =
      ((runCalls ⟨p, []⟩ calls).session_costs.map
        (fun r => r.total_estimated_cost)).sum := by
  have hs := (runCalls_state calls ⟨p, []⟩).2
  refine ⟨?_, ?_, ?_, ?_, rfl⟩
  · show (runCalls ⟨p, []⟩ calls).session_costs.length = calls.length
    rw [hs]
    simp
  · show ((runCalls ⟨p, []⟩ calls).session_costs.map
      (fun r => r.input_tokens)).sum = _
    rw [hs]
    simp only [List.nil_append, List.map_map]
    rfl
  · show ((runCalls ⟨p, []⟩ calls).session_costs.map
      (fun r => r.output_tokens)).sum = _
    rw [hs]
    simp only [List.nil_append, List.map_map]
    rfl
  · show ((runCalls ⟨p, []⟩ calls).session_costs.map (fun r => r.input_tokens)).sum +
      ((runCalls ⟨p, []⟩ calls).session_costs.map (fun r => r.output_tokens)).sum = _
    rw [hs]
    simp only [List.nil_append, List.map_map]
    rfl

/-- The ledger records whose literal `model` string equals `m`. -/
def groupOf (ledger : List CostBreakdown) (m : String) : List CostBreakdown :=
  ledger.filter (fun c => c.model == m)

lemma lookupGroup_updateGroup_self (m : String) (t : ℕ) (e : ℚ)
    (acc : List (String × ModelGroup)) :
    lookupGroup m (updateGroup m t e acc) =
      match lookupGroup m acc with
      | none => some ⟨1, t, e⟩
      | some g => some ⟨g.requests + 1, g.tokens + t, g.estimated_cost + e⟩ := by
  induction acc with
  | nil => simp [updateGroup, lookupGroup]
  | cons p rest ih =>
    obtain ⟨k, g⟩ := p
    by_cases hk : k = m
    · simp [updateGroup, lookupGroup, hk]
    · simp [updateGroup, lookupGroup, hk, ih]

lemma lookupGroup_updateGroup_ne (m m' : String) (t : ℕ) (e : ℚ)
    (acc : List (String × ModelGroup)) (h : m ≠ m') :
    lookupGroup m (updateGroup m' t e acc) = lookupGroup m acc := by
  induction acc with
  | nil =>
    have h' : ¬ m' = m := fun hh => h hh.symm
    simp [updateGroup, lookupGroup, h']
  | cons p rest ih =>
    obtain ⟨k, g⟩ := p
    by_cases hk : k = m'
    · have h' : ¬ m' = m := fun hh => h hh.symm
      simp [updateGroup, lookupGroup, hk, h']
    · by_cases hm : k = m
      · simp [updateGroup, lookupGroup, hk, hm, h]
      · simp [updateGroup, lookupGroup, hk, hm, ih]

lemma lookupGroup_foldl (m : String) : ∀ (l : List CostBreakdown)
    (acc : List (String × ModelGroup)),
    lookupGroup m (l.foldl
        (fun acc c => updateGroup c.model c.total_tokens c.total_estimated_cost acc) acc) =
      match lookupGroup m acc with
      | some g => some ⟨g.requests + (groupOf l m).length,
          g.tokens + ((groupOf l m).map (fun r => r.total_tokens)).sum,
          g.estimated_cost + ((groupOf l m).map (fun r => r.total_estimated_cost)).sum⟩
      | none => if (groupOf l m).length = 0 then none
          else some ⟨(groupOf l m).length,
              ((groupOf l m).map (fun r => r.total_tokens)).sum,
              ((groupOf l m).map (fun r => r.total_estimated_cost)).sum⟩ := by
  intro l
  induction l with
  | nil =>
    intro acc
    cases h : lookupGroup m acc <;> simp [groupOf, h]
  | cons c t ih =>
    intro acc
    have hfold : (c :: t).foldl
        (fun acc c => updateGroup c.model c.total_tokens c.total_estimated_cost acc) acc =
        t.foldl (fun acc c => updateGroup c.model c.total_tokens c.total_estimated_cost acc)
          (updateGroup c.model c.total_tokens c.total_estimated_cost acc) := rfl
    rw [hfold, ih]
    by_cases hm : m = c.model
    · have hfil : groupOf (c :: t) m = c :: groupOf t m := by
        simp [groupOf, List.filter_cons, hm.symm]
      rw [hfil, hm, lookupGroup_updateGroup_self]
      cases h : lookupGroup c.model acc with
      | none =>
        simp only [List.length_cons, List.map_cons, List.sum_cons]
        rw [if_neg (by omega)]
        simp only [Option.some.injEq, ModelGroup.mk.injEq]
        refine ⟨by omega, trivial, trivial⟩
      | some g =>
        simp only [List.length_cons, List.map_cons, List.sum_cons,
          Option.some.injEq, ModelGroup.mk.injEq]
        refine ⟨by omega, by omega, by ring⟩
    · have h' : ¬ c.model = m := fun hh => hm hh.symm
      have hfil : groupOf (c :: t) m = groupOf t m := by
        simp [groupOf, List.filter_cons, h']
      rw [hfil, lookupGroup_updateGroup_ne m c.model _ _ acc hm]

/-- A minimal ledger record used to exercise the per-model grouping. -/
def demoRecord (m : String) : CostBreakdown :=
  { model := m, input_tokens := 1, output_tokens := 1, total_tokens := 2,
    input_cost := 0, output_cost := 0, total_estimated_cost := 1 }

/-- Two records for `"gpt-5-mini"` and one for `"GPT-5-Mini"`. -/
def demoLedger : List CostBreakdown :=
  [demoRecord "gpt-5-mini", demoRecord "gpt-5-mini", demoRecord "GPT-5-Mini"]

/-- C7: `costs_by_model` groups the ledger by the literal `model` string:
every queried model name maps to the count, token sum and estimated-cost sum
of exactly the records whose `model` equals it (and to nothing when no record
does); records differing only in letter case land under distinct keys. -/
theorem costs_by_model_spec :
    (∀ (ledger : List CostBreakdown) (m : String),
      lookupGroup m (costs_by_model ledger) =
        if (groupOf ledger m).length = 0 then none
        else some ⟨(groupOf ledger m).length,
            ((groupOf ledger m).map (fun r => r.total_tokens)).sum,
            ((groupOf ledger m).map (fun r => r.total_estimated_cost)).sum⟩) ∧
    lookupGroup "gpt-5-mini" (costs_by_model demoLedger) = some ⟨2, 4, 2⟩ ∧
    lookupGroup "GPT-5-Mini" (costs_by_model demoLedger) = some ⟨1, 2, 1⟩ ∧
    ("gpt-5-mini" : String) ≠ "GPT-5-Mini" := by
  refine ⟨?_, ?_, ?_, ?_⟩
  · intro ledger m
    have h := lookupGroup_foldl m ledger []
    simpa [costs_by_model, lookupGroup] using h
  · have hne : ¬("GPT-5-Mini" : String) = "gpt-5-mini" := by decide
    norm_num [costs_by_model, demoLedger, demoRecord, updateGroup, lookupGroup,
      List.foldl, hne]
  · have hne : ¬("GPT-5-Mini" : String) = "gpt-5-mini" := by decide
    have hne' : ¬("gpt-5-mini" : String) = "GPT-5-Mini" := by decide
    norm_num [costs_by_model, demoLedger, demoRecord, updateGroup, lookupGroup,
      List.foldl, hne, hne']
  · decide

lemma natDigitsRev_length (k : ℕ) : ∀ n, (natDigitsRev k n).length = k := by
  induction k with
  | zero => intro n; rfl
  | succ k ih => intro n; simp [natDigitsRev, ih]

lemma fracPart_length (n : ℕ) : (fracPart n).length = 6 := by
  show (natDigitsRev 6 n).reverse.length = 6
  rw [List.length_reverse, natDigitsRev_length]

lemma dollar_ne_pending (s : String) : "$" ++ s ≠ "Pending" := by
  intro h
  have h1 : ("$" ++ s).data.head? = some '$' := rfl
  rw [h] at h1
  exact absurd h1 (by decide)

/-- C8 (amended): `get_cost_history` is the ledger in append order with each
record rendered by `to_dict`; every cost field is the `$`-prefixed
fixed-point string with exactly six decimal places; and the `"Pending"`
sentinel appears in the actual-cost position exactly when `actual_cost` is
absent OR present but equal to zero (Python truthiness), the formatted value
appearing exactly for present nonzero values. -/
theorem cost_history_rendering :
    (∀ (c : CostCalculator) (i : ℕ),
      (get_cost_history c)[i]? = (c.session_costs[i]?).map to_dict) ∧
    (∀ r : CostBreakdown,
      (to_dict r).input_cost = "$" ++ fmt6 r.input_cost ∧
      (to_dict r).output_cost = "$" ++ fmt6 r.output_cost ∧
      (to_dict r).total_estimated_cost = "$" ++ fmt6 r.total_estimated_cost ∧
      ((to_dict r).actual_cost = "Pending" ↔
        r.actual_cost = none ∨ r.actual_cost = some 0) ∧
      (∀ a : ℚ, r.actual_cost = some a → a ≠ 0 →
        (to_dict r).actual_cost = "$" ++ fmt6 a)) ∧
    (∀ q : ℚ, (fracPart ((fmt6Digits q).natAbs % 1000000)).length = 6) := by
  refine ⟨?_, ?_, ?_⟩
  · intro c i
    simp [get_cost_history]
  · intro r
    refine ⟨rfl, rfl, rfl, ?_, ?_⟩
    · cases hr : r.actual_cost with
      | none => simp [to_dict, pyTruthy, hr]
      | some a =>
        by_cases ha : a = 0
        · subst ha
          simp [to_dict, pyTruthy, hr]
        · have ht : pyTruthy (some a) = true := by simp [pyTruthy, ha]
          simp [to_dict, hr, ht, dollar_ne_pending, ha]
    · intro a ha hne
      have ht : pyTruthy (some a) = true := by simp [pyTruthy, hne]
      simp [to_dict, ha, ht]
  · intro q
    exact fracPart_length _

/-- A record whose actual cost has been populated with a nonzero value. -/
def oneActualRecord : CostBreakdown :=
  { model := "m", input_tokens := 0, output_tokens := 0, total_tokens := 0,
    input_cost := 0, output_cost := 0, total_estimated_cost := 0,
    actual_cost := some 1 }

/-- C8 witness: a present nonzero actual cost renders as its formatted value. -/
theorem cost_history_rendering_witness :
    (to_dict oneActualRecord).actual_cost = "$" ++ fmt6 1 :=
  (cost_history_rendering.2.1 oneActualRecord).2.2.2.2 1 rfl one_ne_zero

/-- A record whose actual cost is present and equal to zero. -/
def zeroActualRecord : CostBreakdown :=
  { model := "m", input_tokens := 0, output_tokens := 0, total_tokens := 0,
    input_cost := 0, output_cost := 0, total_estimated_cost := 0,
    actual_cost := some 0 }

/-- C8 counterexample: a record whose `actual_cost` is present (equal to
zero) still renders the `"Pending"` sentinel, so the sentinel does not appear
exactly when the value is absent. -/
theorem pending_despite_present_actual :
    zeroActualRecord.actual_cost = some 0 ∧
    zeroActualRecord.actual_cost ≠ none ∧
    (to_dict zeroActualRecord).actual_cost = "Pending" := by
  refine ⟨rfl, by simp [zeroActualRecord], ?_⟩
  simp [to_dict, pyTruthy, zeroActualRecord]

end CostCalc
